import Mathlib

/-!
Verification of the declarative item-registry and rule-execution engine of
the packing-box repository (pbox). The definitions below are shallow
embeddings of the Python sources:

* `src/lib/src/pbox/helpers/items.py` — `dict2` (callable item definitions
  with sandboxed expression evaluation), `_randbytes`, `load_yaml_config`
  (pattern-based defaults), `MetaItem.source` (variant template expansion),
  `MetaBase.source` (memoized registry source).
* `src/lib/src/pbox/common/modifiers/__init__.py` — `Modifiers.__init__`
  (registry build per format category, selection filtering, the item
  application pipeline with per-item failure isolation and final build).

Python exceptions are modelled by an explicit kind, machine state by
explicit record passing, and the external sources of nondeterminism
(`random.choice`, regular-expression search, the lief parser) by function
parameters.
-/

namespace Pbox

/-- Kinds of Python exceptions that can escape one expression evaluation:
`ForbiddenNodeError` (a disallowed syntax node, raised by `eval2` under a
whitelist of AST nodes), `NameError` (a context name not yet bound), and
any other `Exception`.  In the Python sources all three derive from the
builtin `Exception` class (`ForbiddenNodeError` is created by tinyscript
over `ValueError`), so a bare `except Exception` clause catches each of
them. -/
inductive ExcKind where
  | forbiddenNode
  | nameError
  | other
deriving DecidableEq

/-- Diagnostic messages emitted by `dict2._logger` while an expression is
executed. -/
inductive LogMsg where
  | warning
  | error
  | exception
  | debug
deriving DecidableEq

/-- Embedding of the local function `_exec` inside `dict2.__call__`
(src/lib/src/pbox/helpers/items.py, lines 93-121).  The outcome of the
underlying `eval2` call is passed in as `evalOut`; `callOut` gives the
outcome of invoking the evaluated result with the stored keyword
parameters when `kwargsEmpty` is false.  All three `except` branches of
the first `try` block re-raise, so an evaluation error always propagates;
the `silent` flag only suppresses the `NameError` and generic-`Exception`
diagnostics, never the `ForbiddenNodeError` ones.  A failure of the second
`try` block (the call phase) is logged and swallowed, yielding `none`. -/
def execExpr {V : Type} (silent : Bool) (kwargsEmpty : Bool)
    (evalOut : Except ExcKind V) (callOut : V → Except ExcKind V) :
    Except ExcKind (Option V) × List LogMsg :=
  match evalOut with
  | .error .forbiddenNode =>
      (.error .forbiddenNode, [LogMsg.warning, LogMsg.error])
  | .error .nameError =>
      (.error .nameError, if silent then [] else [LogMsg.debug])
  | .error .other =>
      (.error .other,
       if silent then [] else [LogMsg.warning, LogMsg.exception, LogMsg.debug])
  | .ok r =>
      if kwargsEmpty then (.ok (some r), [])
      else
        match callOut r with
        | .ok v => (.ok (some v), [])
        | .error _ =>
            (.ok none, if silent then [] else [LogMsg.warning, LogMsg.error])

/-- One registered modifier as seen by the pipeline loop of
`Modifiers.__init__`: its registry name, its `apply` flag, and the outcome
of `modifier(d, executable=exe, parser=parser)` as a function of the
current parser state (`none` before the first successful application).
`run` returning `Except.error k` models the modifier call raising a Python
exception of kind `k`; returning `Except.ok p` models it returning the
(new) parser object `p`. -/
structure ItemDef (P : Type) where
  name : String
  apply : Bool
  run : Option P → Except ExcKind P

/-- Mutable state threaded through the pipeline loop of
`Modifiers.__init__`: the current parser object (initially `None`) and the
list of modifier names appended so far (the `Modifiers` list itself). -/
structure PipeState (P : Type) where
  parser : Option P
  applied : List String
deriving DecidableEq

/-- Embedding of the selection test at the top of the pipeline loop
(`if select is None and not modifier.apply or select is not None and name
not in select: continue`): the item runs iff with no selection its `apply`
flag is set, and with a selection its name is selected. -/
def selectedFor {P : Type} (select : Option (List String)) (it : ItemDef P) : Bool :=
  match select with
  | none => it.apply
  | some l => decide (it.name ∈ l)

/-- One iteration of the pipeline loop of `Modifiers.__init__` (lines
69-95): a non-selected item is skipped; a selected item is applied to the
current parser state; on success the returned parser replaces the state
and the name is appended; on any exception (`except Exception`) a warning
is logged and the state is left unchanged. -/
def stepItem {P : Type} (select : Option (List String))
    (st : PipeState P) (it : ItemDef P) : PipeState P :=
  if selectedFor select it then
    match it.run st.parser with
    | .ok p => ⟨some p, st.applied ++ [it.name]⟩
    | .error _ => st
  else st

/-- Result of one whole pipeline run: final parser state, applied names,
and how many times `parser.build()` was invoked by the finalization
(`if parser is not None: parser.build()`). -/
structure PipeResult (P : Type) where
  parser : Option P
  applied : List String
  builds : Nat
deriving DecidableEq

/-- State reached after folding the pipeline loop over a list of registry
items, starting from the initial state (no parser, nothing applied). -/
def pipeFold {P : Type} (items : List (ItemDef P))
    (select : Option (List String)) : PipeState P :=
  items.foldl (stepItem select) ⟨none, []⟩

/-- Embedding of the full pipeline of `Modifiers.__init__` (lines 69-98):
fold the loop over the registry items of the target format, then invoke
`parser.build()` exactly once when the parser state is set. -/
def runPipeline {P : Type} (items : List (ItemDef P))
    (select : Option (List String)) : PipeResult P :=
  let st := pipeFold items select
  ⟨st.parser, st.applied, if st.parser.isSome then 1 else 0⟩

/-- The pipeline loop establishes the invariant that the parser state is
set exactly when at least one item has been applied. -/
lemma pipeFold_parser_iff_applied {P : Type} (select : Option (List String)) :
    ∀ (l : List (ItemDef P)) (st : PipeState P),
      (st.parser.isSome ↔ st.applied ≠ []) →
      ((l.foldl (stepItem select) st).parser.isSome ↔
        (l.foldl (stepItem select) st).applied ≠ []) := by
  intro l
  induction l with
  | nil => intro st h; simpa using h
  | cons it rest ih =>
      intro st h
      simp only [List.foldl_cons]
      apply ih
      unfold stepItem
      by_cases hsel : selectedFor select it
      · simp only [hsel, if_pos]
        cases hrun : it.run st.parser with
        | ok p => simp
        | error k => exact h
      · simpa [hsel] using h

/-- Every name in the applied list after folding the loop comes either
from the starting state or from the name of one of the folded items. -/
lemma pipeFold_applied_sources {P : Type} (select : Option (List String)) :
    ∀ (l : List (ItemDef P)) (st : PipeState P) (n : String),
      n ∈ (l.foldl (stepItem select) st).applied →
      n ∈ st.applied ∨ n ∈ l.map ItemDef.name := by
  intro l
  induction l with
  | nil => intro st n h; exact Or.inl (by simpa using h)
  | cons it rest ih =>
      intro st n h
      simp only [List.foldl_cons] at h
      rcases ih _ n h with h1 | h2
      · unfold stepItem at h1
        by_cases hsel : selectedFor select it
        · simp only [hsel, if_pos] at h1
          cases hrun : it.run st.parser with
          | ok p =>
              rw [hrun] at h1
              simp only [List.mem_append, List.mem_singleton] at h1
              rcases h1 with h1 | h1
              · exact Or.inl h1
              · exact Or.inr (by simp [h1])
          | error k =>
              rw [hrun] at h1
              exact Or.inl h1
        · simp only [hsel, if_neg, Bool.false_eq_true, not_false_iff] at h1
          exact Or.inl (by simpa [hsel] using h1)
      · exact Or.inr (by simp [h2])

/-- Applying the loop body to a selected item that raises leaves the
pipeline state unchanged (the exception is caught, only a warning is
logged). -/
lemma stepItem_error {P : Type} {select : Option (List String)}
    {st : PipeState P} {it : ItemDef P} {k : ExcKind}
    (hsel : selectedFor select it = true)
    (hraise : it.run st.parser = .error k) :
    stepItem select st it = st := by
  unfold stepItem
  rw [hsel, if_pos rfl, hraise]

/-- A selected item that raises at the state it is applied to contributes
nothing to the run: the whole pipeline behaves as if the item were absent
from the registry. -/
lemma runPipeline_error_skip {P : Type} (pre post : List (ItemDef P))
    (it : ItemDef P) (select : Option (List String)) (k : ExcKind)
    (hsel : selectedFor select it = true)
    (hraise : it.run (pipeFold pre select).parser = .error k) :
    runPipeline (pre ++ it :: post) select = runPipeline (pre ++ post) select := by
  have h := stepItem_error hsel hraise
  unfold pipeFold at h
  unfold runPipeline pipeFold
  rw [List.foldl_append, List.foldl_append, List.foldl_cons, h]

/-- Modelled from the spec: the format hierarchy used by `expand_formats`
and `FORMATS` (src/lib/src/pbox/helpers/formats.py, not among the provided
sources).  The spec describes a universal category "All", intermediate
format classes (the remaining keys), and the specific executable formats
each class expands to. -/
def FORMATS : List (String × List String) :=
  [("All", []),
   ("ELF", ["ELF32", "ELF64"]),
   ("Mach-O", ["Mach-O32", "Mach-O64", "Mach-Ou"]),
   ("MSDOS", ["MSDOS"]),
   ("PE", ["PE32", "PE64"])]

/-- Modelled from the spec: `expand_formats` maps the universal category
"All" to every specific format, an intermediate format class to its list
of specific formats, and a specific format to itself. -/
def expand_formats (f : String) : List String :=
  if f = "All" then
    (FORMATS.filter (fun p => p.1 ≠ "All")).foldl (fun a p => a ++ p.2) []
  else
    match FORMATS.lookup f with
    | some l => l
    | none => [f]

/-- Value of the `result` key of one modifier in the YAML configuration:
either a mapping from category key to expression string, or a plain
expression applicable to every category (`str(r)` in the source). -/
inductive ResultSpec where
  | mapping (m : List (String × String))
  | plain (e : String)
deriving DecidableEq

/-- Expression selected for category `c` by `expr = r.get(c) if
isinstance(r, dict) else str(r)` followed by the truthiness test
`if expr:` (an absent key or an empty string yields nothing). -/
def getExpr (r : ResultSpec) (c : String) : Option String :=
  match r with
  | .mapping m =>
      match m.lookup c with
      | some e => if e = "" then none else some e
      | none => none
  | .plain e => if e = "" then none else some e

/-- A modifier definition as stored in `Modifiers.registry`: the `dict2`
instance keeps the YAML item name and the expression it was built from;
`builtFrom` records the category key `c` of the registration pass that
created it (observable through the stored `result` expression). -/
structure RegModifier where
  name : String
  result : String
  builtFrom : String
deriving DecidableEq

/-- Assignment `Modifiers.registry[c2][m.name] = m` on the inner
name-to-modifier mapping: a Python dict assignment replaces the value of
an existing key in place and appends a new key at the end. -/
def assignEntry (inner : List (String × RegModifier)) (nm : String)
    (m : RegModifier) : List (String × RegModifier) :=
  if inner.any (fun p => p.1 = nm) then
    inner.map (fun p => if p.1 = nm then (nm, m) else p)
  else inner ++ [(nm, m)]

/-- Combination of `Modifiers.registry.setdefault(c2, {})` and the inner
assignment on the outer category-to-mapping dict. -/
def setRegistry (reg : List (String × List (String × RegModifier)))
    (cat nm : String) (m : RegModifier) :
    List (String × List (String × RegModifier)) :=
  if reg.any (fun p => p.1 = cat) then
    reg.map (fun p => if p.1 = cat then (cat, assignEntry p.2 nm m) else p)
  else reg ++ [(cat, assignEntry [] nm m)]

/-- Categories of the three registration passes of `Modifiers.__init__`
(line 52): first every specific format, then the intermediate format
classes (`list(FORMATS.keys())[1:]`), and finally the universal "All". -/
def clists : List (List String) :=
  [expand_formats "All", (FORMATS.map Prod.fst).drop 1, ["All"]]

/-- Registration of one `(name, params)` configuration entry
(`Modifiers.__init__`, lines 49-59): for every category `c` of the three
passes in order, when the result spec yields an expression for `c`, a
`Modifier` is built from it and assigned into the registry under every
specific format that `c` expands to. -/
def registerOne (reg : List (String × List (String × RegModifier)))
    (name : String) (r : ResultSpec) :
    List (String × List (String × RegModifier)) :=
  clists.foldl (fun reg clist =>
    clist.foldl (fun reg c =>
      match getExpr r c with
      | none => reg
      | some expr =>
          (expand_formats c).foldl
            (fun reg c2 => setRegistry reg c2 name ⟨name, expr, c⟩) reg) reg) reg

/-- Registry build of `Modifiers.__init__` (lines 43-59): starting from an
empty registry, register every configuration entry in order. -/
def buildRegistry (modifiers : List (String × ResultSpec)) :
    List (String × List (String × RegModifier)) :=
  modifiers.foldl (fun reg p => registerOne reg p.1 p.2) []

/-- Lookup of the modifier stored for item `nm` under category `cat`. -/
def lookupRegistry (reg : List (String × List (String × RegModifier)))
    (cat nm : String) : Option RegModifier :=
  match reg.lookup cat with
  | some inner => inner.lookup nm
  | none => none

/-- Class-level state behind the `source` property of `MetaBase`
(src/lib/src/pbox/helpers/items.py, lines 286-298): the current source
path (absent before the first assignment) and the memoized registry
(`None` when it must be rebuilt). -/
structure SourceState (R : Type) where
  src : Option String
  registry : Option R
deriving DecidableEq

/-- Embedding of the `source` setter of `MetaBase` (lines 292-298): the
assigned path is resolved (`Path(str(path or config[...]), expand=True)`,
modelled by the `resolve` parameter); when it equals the current source
the setter returns at once, otherwise it stores the new path and resets
the registry to `None`. -/
def setSource {R : Type} (resolve : Option String → String)
    (st : SourceState R) (path : Option String) : SourceState R :=
  let p := resolve path
  if st.src = some p then st
  else ⟨some p, none⟩

/-- Lazy registry initialization of `Modifiers.__init__` (lines 39-59,
`if Modifiers.registry is None:`): a memoized registry is returned as is,
otherwise the registry is built from the configured modifiers and
memoized. -/
def ensureRegistry (cfg : List (String × ResultSpec))
    (st : SourceState (List (String × List (String × RegModifier)))) :
    (List (String × List (String × RegModifier))) ×
      SourceState (List (String × List (String × RegModifier))) :=
  match st.registry with
  | some r => (r, st)
  | none => (buildRegistry cfg, ⟨st.src, some (buildRegistry cfg)⟩)

/-- Modelled from the spec: the sentinel constant `UNDEF_RESULT` used by
`dict2.__init__` (defined outside the provided sources) marking an
undefined result; the repository uses the literal string value
"undefined" for it. -/
def UNDEF_RESULT : String := "undefined"

/-- Value bound to the `result` key of an item configuration: one
expression string or an ordered list of expression strings. -/
inductive ResultVal where
  | str (s : String)
  | exprs (l : List String)
deriving DecidableEq

/-- Parameter mapping handed to `dict2` construction, restricted to the
keys its constructor inspects. `none` models an absent key. -/
structure Dict2Input where
  name : Option String
  description : Option String
  result : Option ResultVal
deriving DecidableEq

/-- A constructed `dict2` record. -/
structure Dict2 where
  name : String
  description : String
  result : ResultVal
deriving DecidableEq

/-- Embedding of `dict2.__init__` (src/lib/src/pbox/helpers/items.py,
lines 71-82): the fields `name`, `description` and `result` are
pre-seeded with the defaults `UNDEF_RESULT`, the empty string and
`self[name]` (which at that point is always `UNDEF_RESULT`), then
overwritten by the supplied mapping; construction raises `ValueError`
naming the item exactly when the final `result` still equals the
`UNDEF_RESULT` sentinel. -/
def dict2_init (m : Dict2Input) : Except String Dict2 :=
  let name := m.name.getD UNDEF_RESULT
  let description := m.description.getD ""
  let result := m.result.getD (.str UNDEF_RESULT)
  if result = .str UNDEF_RESULT then
    .error (name ++ ": result shall be defined")
  else
    .ok ⟨name, description, result⟩

/-- Embedding of the boolean pattern-based default of `load_yaml_config`
(src/lib/src/pbox/helpers/items.py, lines 545-569): for a default key
whose value is `{match: patterns, value: v}` with `v` boolean, the source
iterates over the patterns and, for every entry, calls
`config[name2].setdefault(default, v if re.search(pattern, name2) else
not v)`.  Regular-expression search is modelled by the `patterns`
functions; each configuration entry is projected to the value it holds
for the default key (`none` when the entry does not define it). -/
def applyBoolPatternDefault (patterns : List (String → Bool)) (v : Bool)
    (cfg : List (String × Option Bool)) : List (String × Option Bool) :=
  patterns.foldl (fun cfg pat =>
    cfg.map (fun e =>
      match e.2 with
      | some b => (e.1, some b)
      | none => (e.1, some (if pat e.1 then v else !v)))) cfg

/-- Recursive loop of `_randbytes` (src/lib/src/pbox/helpers/items.py,
lines 40-45) in the unique case: at each step one byte is chosen from the
remaining alphabet (`random.choice`, modelled by the `pick` oracle reduced
modulo the current alphabet size) and removed from it
(`alphabet.remove(c)`). -/
def randbytesGo (pick : Nat → Nat) : Nat → List Nat → List Nat
  | 0, _ => []
  | n + 1, alphabet =>
      alphabet.getD (pick n % alphabet.length) 0 ::
        randbytesGo pick n (alphabet.erase (alphabet.getD (pick n % alphabet.length) 0))

/-- Embedding of `_randbytes(n, unique=True)` (src/lib/src/pbox/helpers/
items.py, lines 35-45): more than 256 bytes raise `ValueError`, otherwise
`n` bytes are drawn without replacement from the alphabet of all 256 byte
values. -/
def _randbytes (pick : Nat → Nat) (n : Nat) : Except String (List Nat) :=
  if n > 256 then .error "Cannot produce more than 256 distinct bytes"
  else .ok (randbytesGo pick n (List.range 256))

/-- Embedding of the lenient selection filter of `Modifiers.__init__`
(lines 60-68) with `warn=True`: the loop iterates over a copy of the
caller-supplied selection list and removes from the live list
(`select.remove(name)`, erasing the first occurrence) every name that is
not a key of the registry mapping for the target format (`known`). -/
def filterSelect (known : List String) (select : List String) : List String :=
  select.foldl (fun cur name =>
    if name ∈ known then cur else cur.erase name) select

/-- Name of a synthesized variant (src/lib/src/pbox/helpers/items.py,
line 426): the base item name dash-joined with the values of one
cross-product tuple. -/
def variantName (item : String) (values : List String) : String :=
  String.intercalate "-" (item :: values)

/-- Cross product `itertools.product(*iterables)` in iteration order (the
rightmost iterable varies fastest). -/
def cartProd : List (List String) → List (List String)
  | [] => [[]]
  | l :: ls => l.flatMap (fun x => (cartProd ls).map (fun vs => x :: vs))

/-- Variant keys synthesized by the `_template` expansion of
`MetaItem.source` (src/lib/src/pbox/helpers/items.py, lines 421-431)
starting from an empty `variants` mapping: for each cross-product tuple
the dash-joined name is added by `variants.setdefault(vitem, ...)`, so a
name already present creates no new entry. -/
def synthKeys (item : String) (iterables : List (List String)) : List String :=
  (cartProd iterables).foldl (fun acc values =>
    let v := variantName item values
    if v ∈ acc then acc else acc ++ [v]) []

/-- The number of cross-product tuples is the product of the lengths of
the iterables. -/
lemma cartProd_length : ∀ its : List (List String),
    (cartProd its).length = (its.map List.length).prod := by
  intro its
  induction its with
  | nil => rfl
  | cons l ls ih =>
      have hfun : (List.length ∘ fun x : String => List.map (fun vs => x :: vs) (cartProd ls))
          = Function.const String ((ls.map List.length).prod) := by
        funext x
        simp [Function.comp, ih]
      simp only [cartProd, List.length_flatMap, hfun, List.map_const,
        List.sum_replicate, smul_eq_mul, List.map_cons, List.prod_cons]

/-- Folding the setdefault-style accumulation over a duplicate-free list
disjoint from the accumulator appends the whole list. -/
lemma foldl_addIfNew_of_nodup :
    ∀ (l acc : List String), l.Nodup → (∀ x ∈ l, x ∉ acc) →
      l.foldl (fun acc v => if v ∈ acc then acc else acc ++ [v]) acc = acc ++ l := by
  intro l
  induction l with
  | nil => intro acc _ _; simp
  | cons x xs ih =>
      intro acc hnd hdisj
      have hx : x ∉ acc := hdisj x (by simp)
      simp only [List.foldl_cons, if_neg hx]
      rw [ih (acc ++ [x]) hnd.of_cons ?_]
      · simp
      · intro y hy
        simp only [List.mem_append, List.mem_singleton]
        rintro (hya | rfl)
        · exact hdisj y (by simp [hy]) hya
        · exact (List.nodup_cons.mp hnd).1 hy

/-- Invariant of the `_randbytes` drawing loop: starting from a
duplicate-free alphabet at least as long as the requested count, the
result has exactly the requested length, is duplicate-free, and draws
only from the alphabet. -/
lemma randbytesGo_spec (pick : Nat → Nat) :
    ∀ (n : Nat) (alphabet : List Nat), alphabet.Nodup → n ≤ alphabet.length →
      (randbytesGo pick n alphabet).length = n
      ∧ (randbytesGo pick n alphabet).Nodup
      ∧ ∀ x ∈ randbytesGo pick n alphabet, x ∈ alphabet := by
  intro n
  induction n with
  | zero =>
      intro alphabet _ _
      refine ⟨rfl, List.nodup_nil, ?_⟩
      intro x hx
      exact absurd hx (List.not_mem_nil x)
  | succ m ih =>
      intro alphabet hnd hlen
      have hpos : 0 < alphabet.length := lt_of_lt_of_le (Nat.succ_pos m) hlen
      have hidx : pick m % alphabet.length < alphabet.length := Nat.mod_lt _ hpos
      have hcmem : alphabet.getD (pick m % alphabet.length) 0 ∈ alphabet := by
        rw [List.getD_eq_getElem _ _ hidx]
        exact List.getElem_mem hidx
      have hlen2 : m ≤ (alphabet.erase (alphabet.getD (pick m % alphabet.length) 0)).length := by
        rw [List.length_erase_of_mem hcmem]
        omega
      obtain ⟨ihlen, ihnd, ihsub⟩ := ih _ (hnd.erase _) hlen2
      refine ⟨by rw [randbytesGo, List.length_cons, ihlen], ?_, ?_⟩
      · rw [randbytesGo, List.nodup_cons]
        refine ⟨?_, ihnd⟩
        intro hmem
        have := ihsub _ hmem
        exact ((hnd.mem_erase_iff).mp this).1 rfl
      · intro x hx
        rw [randbytesGo, List.mem_cons] at hx
        rcases hx with rfl | hx
        · exact hcmem
        · exact List.mem_of_mem_erase (ihsub _ hx)

/-- C1 (counterexample): the claim states that the pipeline executor
re-raises a forbidden-expression error and aborts the whole pipeline
immediately instead of isolating it as a per-item failure.  On the code
this is false: `Modifiers.__init__` catches every `Exception` (which
includes `ForbiddenNodeError`), so in a two-item pipeline whose first
item raises the forbidden-expression error, the second item still runs,
is recorded as applied, and the final build is still invoked — the
pipeline does not abort. -/
theorem c1_counterexample :
    (runPipeline ([⟨"bad", true, fun _ => Except.error ExcKind.forbiddenNode⟩,
        ⟨"good", true, fun _ => Except.ok ()⟩] : List (ItemDef Unit)) none).applied
      = ["good"]
    ∧ (runPipeline ([⟨"bad", true, fun _ => Except.error ExcKind.forbiddenNode⟩,
        ⟨"good", true, fun _ => Except.ok ()⟩] : List (ItemDef Unit)) none).builds = 1 :=
  ⟨rfl, rfl⟩

/-- C1 (amended): for every expression whose evaluation hits a disallowed
syntax node, the evaluator raises the distinguishable forbidden-expression
error, logs it, and propagates it to its caller regardless of the silent
flag; the pipeline executor, however, catches it like any other per-item
exception: the offending item is skipped and the run proceeds exactly as
if the item were absent — the pipeline is not aborted. -/
theorem c1_forbidden_propagated_not_aborting {V P : Type}
    (silent kwargsEmpty : Bool) (callOut : V → Except ExcKind V)
    (pre post : List (ItemDef P)) (it : ItemDef P)
    (select : Option (List String))
    (hsel : selectedFor select it = true)
    (hraise : it.run (pipeFold pre select).parser =
      Except.error ExcKind.forbiddenNode) :
    execExpr silent kwargsEmpty (Except.error ExcKind.forbiddenNode) callOut
      = (Except.error ExcKind.forbiddenNode, [LogMsg.warning, LogMsg.error])
    ∧ runPipeline (pre ++ it :: post) select = runPipeline (pre ++ post) select :=
  ⟨rfl, runPipeline_error_skip pre post it select ExcKind.forbiddenNode hsel hraise⟩

/-- C1 (witness): the amended theorem applied to a concrete one-item
context: a selected item raising the forbidden-expression error in front
of a succeeding item. -/
theorem c1_forbidden_witness :
    selectedFor (P := Unit) none
        ⟨"bad", true, fun _ => Except.error ExcKind.forbiddenNode⟩ = true
    ∧ (execExpr true true (Except.error ExcKind.forbiddenNode)
          (fun v : Unit => Except.ok v)
        = (Except.error ExcKind.forbiddenNode, [LogMsg.warning, LogMsg.error])
      ∧ runPipeline ([⟨"bad", true, fun _ => Except.error ExcKind.forbiddenNode⟩,
            ⟨"good", true, fun _ => Except.ok ()⟩] : List (ItemDef Unit)) none
        = runPipeline ([⟨"good", true, fun _ => Except.ok ()⟩] : List (ItemDef Unit)) none) :=
  ⟨rfl, c1_forbidden_propagated_not_aborting true true (fun v : Unit => Except.ok v)
    [] [⟨"good", true, fun _ => Except.ok ()⟩]
    ⟨"bad", true, fun _ => Except.error ExcKind.forbiddenNode⟩ none rfl rfl⟩

/-- C2: for every pipeline run in which a selected item raises an
exception during its application, the item is excluded from the
applied-name result list, every subsequent item still executes (the run
coincides with the run over the registry without the failing item), and
the final commit still occurs when at least one other item succeeded. -/
theorem c2_failure_isolation {P : Type} (pre post : List (ItemDef P))
    (it : ItemDef P) (select : Option (List String)) (k : ExcKind)
    (hsel : selectedFor select it = true)
    (hraise : it.run (pipeFold pre select).parser = Except.error k)
    (hname : it.name ∉ (pre ++ post).map ItemDef.name) :
    runPipeline (pre ++ it :: post) select = runPipeline (pre ++ post) select
    ∧ it.name ∉ (runPipeline (pre ++ it :: post) select).applied
    ∧ ((runPipeline (pre ++ it :: post) select).applied ≠ [] →
        (runPipeline (pre ++ it :: post) select).builds = 1) := by
  have hskip := runPipeline_error_skip pre post it select k hsel hraise
  refine ⟨hskip, ?_, ?_⟩
  · rw [hskip]
    intro hmem
    have hmem2 : it.name ∈ (pipeFold (pre ++ post) select).applied := by
      simpa [runPipeline] using hmem
    unfold pipeFold at hmem2
    rcases pipeFold_applied_sources select (pre ++ post) ⟨none, []⟩ it.name hmem2
      with h | h
    · simp at h
    · exact hname h
  · intro hne
    have hinit : ((⟨none, []⟩ : PipeState P).parser.isSome ↔
        (⟨none, []⟩ : PipeState P).applied ≠ []) := by simp
    have hiff := pipeFold_parser_iff_applied select (pre ++ it :: post)
      ⟨none, []⟩ hinit
    have happ : (pipeFold (pre ++ it :: post) select).applied ≠ [] := by
      simpa [runPipeline] using hne
    unfold pipeFold at happ
    have hsome := hiff.mpr happ
    simp only [runPipeline, pipeFold]
    rw [if_pos hsome]

/-- C2 (witness): the theorem applied to a concrete three-item pipeline
whose middle item raises: the run equals the run without it, its name is
not applied, and the build is invoked once. -/
theorem c2_failure_isolation_witness :
    selectedFor (P := Unit) none
        ⟨"bad", true, fun _ => Except.error ExcKind.other⟩ = true
    ∧ (runPipeline ([⟨"a", true, fun _ => Except.ok ()⟩,
          ⟨"bad", true, fun _ => Except.error ExcKind.other⟩,
          ⟨"c", true, fun _ => Except.ok ()⟩] : List (ItemDef Unit)) none
        = runPipeline ([⟨"a", true, fun _ => Except.ok ()⟩,
            ⟨"c", true, fun _ => Except.ok ()⟩] : List (ItemDef Unit)) none
      ∧ "bad" ∉ (runPipeline ([⟨"a", true, fun _ => Except.ok ()⟩,
          ⟨"bad", true, fun _ => Except.error ExcKind.other⟩,
          ⟨"c", true, fun _ => Except.ok ()⟩] : List (ItemDef Unit)) none).applied
      ∧ ((runPipeline ([⟨"a", true, fun _ => Except.ok ()⟩,
          ⟨"bad", true, fun _ => Except.error ExcKind.other⟩,
          ⟨"c", true, fun _ => Except.ok ()⟩] : List (ItemDef Unit)) none).applied ≠ [] →
        (runPipeline ([⟨"a", true, fun _ => Except.ok ()⟩,
          ⟨"bad", true, fun _ => Except.error ExcKind.other⟩,
          ⟨"c", true, fun _ => Except.ok ()⟩] : List (ItemDef Unit)) none).builds = 1)) :=
  ⟨rfl, c2_failure_isolation [⟨"a", true, fun _ => Except.ok ()⟩]
    [⟨"c", true, fun _ => Except.ok ()⟩]
    ⟨"bad", true, fun _ => Except.error ExcKind.other⟩ none ExcKind.other
    rfl rfl (by decide)⟩

/-- C6: for every pipeline run, the external build operation is invoked
exactly once when at least one item was applied, and never when no item
was applied. -/
theorem c6_commit_once_iff_applied {P : Type} (items : List (ItemDef P))
    (select : Option (List String)) :
    ((runPipeline items select).applied ≠ [] →
      (runPipeline items select).builds = 1)
    ∧ ((runPipeline items select).applied = [] →
      (runPipeline items select).builds = 0) := by
  have hinit : ((⟨none, []⟩ : PipeState P).parser.isSome ↔
      (⟨none, []⟩ : PipeState P).applied ≠ []) := by simp
  have hiff := pipeFold_parser_iff_applied select items ⟨none, []⟩ hinit
  constructor
  · intro hne
    have happ : (items.foldl (stepItem select) ⟨none, []⟩).applied ≠ [] := by
      simpa [runPipeline, pipeFold] using hne
    have hsome := hiff.mpr happ
    simp only [runPipeline, pipeFold]
    rw [if_pos hsome]
  · intro heq
    have happ : (items.foldl (stepItem select) ⟨none, []⟩).applied = [] := by
      simpa [runPipeline, pipeFold] using heq
    have hnone : ¬ (items.foldl (stepItem select) ⟨none, []⟩).parser.isSome := by
      rw [hiff]
      simp [happ]
    simp only [runPipeline, pipeFold]
    rw [if_neg hnone]

/-- C6 (witness): the theorem applied to a concrete one-item pipeline
whose item succeeds: the applied list is nonempty and the build is
invoked once. -/
theorem c6_commit_once_witness :
    (runPipeline ([⟨"a", true, fun _ => Except.ok ()⟩] : List (ItemDef Unit))
        none).applied ≠ []
    ∧ (runPipeline ([⟨"a", true, fun _ => Except.ok ()⟩] : List (ItemDef Unit))
        none).builds = 1 :=
  ⟨by decide,
   (c6_commit_once_iff_applied
      ([⟨"a", true, fun _ => Except.ok ()⟩] : List (ItemDef Unit)) none).1
     (by decide)⟩

/-- C3 (code evaluation at the failing input): the claim — and the
comment in the source itself ("consider most specific modifiers first,
then those for intermediate format classes and finally the collapsed
class All") — says the entry stored under a specific format is the one
built from the most specific category key.  The code iterates the most
specific pass first but stores with a plain dict assignment, so a later,
broader pass overwrites it: for an item defining result expressions for
both "PE32" and its parent class "PE", the registry entry under "PE32"
is the one built from "PE" (expression "e2"), not from "PE32"
(expression "e1"). -/
theorem c3_broader_category_overwrites :
    lookupRegistry
        (buildRegistry [("mod", ResultSpec.mapping [("PE32", "e1"), ("PE", "e2")])])
        "PE32" "mod"
      = some ⟨"mod", "e2", "PE"⟩ := by
  rfl

/-- C4 (counterexample): the claim states that a template with iterables
of lengths L1…Ln synthesizes exactly L1 × … × Ln variants with pairwise
distinct dash-joined names.  With the template iterables
`[["1-2", "1"], ["x", "2-x"]]` under base item "T" the cross product has
2 × 2 = 4 tuples, but the tuples ("1-2", "x") and ("1", "2-x") both
dash-join to the name "T-1-2-x": the synthesized names are not pairwise
distinct and `setdefault` creates only 3 variant entries. -/
theorem c4_counterexample :
    (cartProd [["1-2", "1"], ["x", "2-x"]]).length = 4
    ∧ ¬ ((cartProd [["1-2", "1"], ["x", "2-x"]]).map (variantName "T")).Nodup
    ∧ (synthKeys "T" [["1-2", "1"], ["x", "2-x"]]).length = 3 := by
  refine ⟨rfl, by decide, rfl⟩

/-- C4 (amended): for every `_template` declaration whose dash-joined
variant names are pairwise distinct, the builder synthesizes exactly
L1 × … × Ln variants, one per cross-product tuple in product order, each
named by joining the base item name with the tuple values; when names
collide, colliding tuples are merged into a single entry and fewer
variants are synthesized. -/
theorem c4_variant_cross_product (item : String) (its : List (List String))
    (hinj : ((cartProd its).map (variantName item)).Nodup) :
    synthKeys item its = (cartProd its).map (variantName item)
    ∧ (synthKeys item its).length = (its.map List.length).prod := by
  have hfold : synthKeys item its
      = ((cartProd its).map (variantName item)).foldl
          (fun acc v => if v ∈ acc then acc else acc ++ [v]) [] := by
    unfold synthKeys
    rw [List.foldl_map]
  have heq : synthKeys item its = (cartProd its).map (variantName item) := by
    rw [hfold, foldl_addIfNew_of_nodup _ [] hinj (by intro x _; simp)]
    simp
  refine ⟨heq, ?_⟩
  rw [heq, List.length_map, cartProd_length]

/-- C4 (witness): the theorem applied to the concrete scenario of the
spec: a template with iterables [1, 2] and [x, y] under base item T
synthesizes the 4 distinct variants T-1-x, T-1-y, T-2-x, T-2-y. -/
theorem c4_variant_witness :
    ((cartProd [["1", "2"], ["x", "y"]]).map (variantName "T")).Nodup
    ∧ (synthKeys "T" [["1", "2"], ["x", "y"]]
        = (cartProd [["1", "2"], ["x", "y"]]).map (variantName "T")
      ∧ (synthKeys "T" [["1", "2"], ["x", "y"]]).length
        = ([["1", "2"], ["x", "y"]].map List.length).prod) :=
  ⟨by decide, c4_variant_cross_product "T" [["1", "2"], ["x", "y"]] (by decide)⟩

/-- C5: registry construction is memoized and deterministic: assigning a
source path equal to the current one leaves the class state untouched (no
reset, no rebuild); assigning a different path resets the registry;
building from a fixed configuration always yields the same mapping, and a
second access after the first build returns the memoized registry without
rebuilding. -/
theorem c5_registry_memoized (resolve : Option String → String)
    (st : SourceState (List (String × List (String × RegModifier))))
    (path : Option String) (cfg : List (String × ResultSpec))
    (s : Option String) :
    (st.src = some (resolve path) → setSource resolve st path = st)
    ∧ (st.src ≠ some (resolve path) →
        setSource resolve st path = ⟨some (resolve path), none⟩)
    ∧ (ensureRegistry cfg ⟨s, none⟩).1 = buildRegistry cfg
    ∧ ensureRegistry cfg (ensureRegistry cfg ⟨s, none⟩).2
        = ((ensureRegistry cfg ⟨s, none⟩).1, (ensureRegistry cfg ⟨s, none⟩).2) := by
  refine ⟨?_, ?_, rfl, rfl⟩
  · intro h
    simp [setSource, h]
  · intro h
    simp [setSource, h]

/-- C5 (witness): the theorem applied at concrete states: re-assigning
the resolved path "cfg" to a class whose source is already "cfg" keeps
the memoized registry; assigning it to a class with a different source
resets the registry; and the double-build identities hold for a concrete
configuration. -/
theorem c5_registry_memoized_witness :
    (⟨some "cfg", some []⟩ :
        SourceState (List (String × List (String × RegModifier)))).src
      = some ((fun _ => "cfg") (none : Option String))
    ∧ setSource (fun _ => "cfg")
        (⟨some "cfg", some []⟩ :
          SourceState (List (String × List (String × RegModifier)))) none
      = ⟨some "cfg", some []⟩
    ∧ (⟨some "old", some []⟩ :
        SourceState (List (String × List (String × RegModifier)))).src
      ≠ some ((fun _ => "cfg") (none : Option String))
    ∧ setSource (fun _ => "cfg")
        (⟨some "old", some []⟩ :
          SourceState (List (String × List (String × RegModifier)))) none
      = ⟨some "cfg", none⟩
    ∧ (ensureRegistry [("mod", ResultSpec.plain "e")] ⟨none, none⟩).1
      = buildRegistry [("mod", ResultSpec.plain "e")]
    ∧ ensureRegistry [("mod", ResultSpec.plain "e")]
        (ensureRegistry [("mod", ResultSpec.plain "e")] ⟨none, none⟩).2
      = ((ensureRegistry [("mod", ResultSpec.plain "e")] ⟨none, none⟩).1,
         (ensureRegistry [("mod", ResultSpec.plain "e")] ⟨none, none⟩).2) :=
  ⟨rfl,
   (c5_registry_memoized (fun _ => "cfg") ⟨some "cfg", some []⟩ none [] none).1 rfl,
   by decide,
   (c5_registry_memoized (fun _ => "cfg") ⟨some "old", some []⟩ none [] none).2.1
     (by decide),
   (c5_registry_memoized (fun _ => "cfg") ⟨some "cfg", some []⟩ none
     [("mod", ResultSpec.plain "e")] none).2.2.1,
   (c5_registry_memoized (fun _ => "cfg") ⟨some "cfg", some []⟩ none
     [("mod", ResultSpec.plain "e")] none).2.2.2⟩

/-- C7 (counterexample): the claim states that item construction fails
whenever the supplied mapping does not resolve `result` to a defined,
non-empty value.  The code only compares the resolved `result` against
the `UNDEF_RESULT` sentinel, so a mapping that explicitly defines
`result` as the empty string constructs successfully. -/
theorem c7_counterexample :
    dict2_init ⟨some "x", none, some (ResultVal.str "")⟩
      = Except.ok ⟨"x", "", ResultVal.str ""⟩ := by
  rfl

/-- C7 (amended): item construction fails, raising an error naming the
item, exactly when the supplied mapping leaves `result` at the undefined
sentinel (in particular whenever `result` is absent); with a `result`
resolved to any value different from the sentinel — even an empty one —
construction does not fail on that account. -/
theorem c7_result_must_be_defined (m : Dict2Input) :
    (m.result.getD (ResultVal.str UNDEF_RESULT) = ResultVal.str UNDEF_RESULT →
      dict2_init m
        = Except.error ((m.name.getD UNDEF_RESULT) ++ ": result shall be defined"))
    ∧ (∀ r, m.result = some r → r ≠ ResultVal.str UNDEF_RESULT →
      dict2_init m
        = Except.ok ⟨m.name.getD UNDEF_RESULT, m.description.getD "", r⟩) := by
  constructor
  · intro h
    simp only [dict2_init, h, if_pos]
  · intro r hr hne
    simp only [dict2_init, hr, Option.getD_some, if_neg hne]

/-- C7 (witness): the theorem applied at concrete mappings: one without a
`result` key, whose construction fails with an error naming the item, and
one with `result` defined as "e", whose construction succeeds. -/
theorem c7_result_witness :
    ((⟨some "it", none, none⟩ : Dict2Input).result.getD (ResultVal.str UNDEF_RESULT)
        = ResultVal.str UNDEF_RESULT
      ∧ dict2_init ⟨some "it", none, none⟩
        = Except.error ("it" ++ ": result shall be defined"))
    ∧ ((⟨some "it", none, some (ResultVal.str "e")⟩ : Dict2Input).result
        = some (ResultVal.str "e")
      ∧ ResultVal.str "e" ≠ ResultVal.str UNDEF_RESULT
      ∧ dict2_init ⟨some "it", none, some (ResultVal.str "e")⟩
        = Except.ok ⟨"it", "", ResultVal.str "e"⟩) :=
  ⟨⟨rfl, (c7_result_must_be_defined ⟨some "it", none, none⟩).1 rfl⟩,
   ⟨rfl, by decide,
    (c7_result_must_be_defined ⟨some "it", none, some (ResultVal.str "e")⟩).2
      (ResultVal.str "e") rfl (by decide)⟩⟩

/-- C8 (code evaluation at the failing input): the claim — and the
comment in the source itself (features matching one of the patterns get
the value, all others its opposite) — says an entry matching some pattern
of the `match` list gets the boolean `value` v, and an entry matching
none gets its complement.  The code calls `setdefault` inside the loop
over patterns, so the first pattern alone decides every entry: the entry
"is_packed" matches the second pattern "is_" of the list, yet with
v = false it receives `true` (the complement), because it does not match
the first pattern "entropy". -/
theorem c8_first_pattern_decides :
    (fun s => decide (s = "is_packed")) "is_packed" = true
    ∧ applyBoolPatternDefault
        [fun s => decide (s = "entropy_x"), fun s => decide (s = "is_packed")] false
        [("is_packed", none)]
      = [("is_packed", some true)] := by
  refine ⟨by decide, ?_⟩
  decide

/-- C9: unique random-byte generation returns, for every requested size
n ≤ 256, a list of exactly n pairwise-distinct byte values (all below
256), and raises an error returning no value for every n > 256. -/
theorem c9_randbytes_unique (pick : Nat → Nat) (n : Nat) :
    (n ≤ 256 →
      _randbytes pick n = Except.ok (randbytesGo pick n (List.range 256))
      ∧ (randbytesGo pick n (List.range 256)).length = n
      ∧ (randbytesGo pick n (List.range 256)).Nodup
      ∧ ∀ x ∈ randbytesGo pick n (List.range 256), x < 256)
    ∧ (n > 256 →
      _randbytes pick n
        = Except.error "Cannot produce more than 256 distinct bytes") := by
  constructor
  · intro h
    have h2 : ¬ n > 256 := by omega
    obtain ⟨hl, hnd, hsub⟩ := randbytesGo_spec pick n (List.range 256)
      (List.nodup_range 256) (by simpa [List.length_range] using h)
    refine ⟨by simp [_randbytes, h2], hl, hnd, ?_⟩
    intro x hx
    have := hsub x hx
    simpa [List.mem_range] using this
  · intro h
    simp [_randbytes, h]

/-- C9 (witness): the theorem applied at the concrete sizes 8 (yielding
8 pairwise-distinct bytes) and 257 (yielding the error). -/
theorem c9_randbytes_witness :
    (8 ≤ 256
      ∧ (_randbytes (fun k => 3 * k + 5) 8
          = Except.ok (randbytesGo (fun k => 3 * k + 5) 8 (List.range 256))
        ∧ (randbytesGo (fun k => 3 * k + 5) 8 (List.range 256)).length = 8
        ∧ (randbytesGo (fun k => 3 * k + 5) 8 (List.range 256)).Nodup
        ∧ ∀ x ∈ randbytesGo (fun k => 3 * k + 5) 8 (List.range 256), x < 256))
    ∧ (257 > 256
      ∧ _randbytes (fun k => k) 257
        = Except.error "Cannot produce more than 256 distinct bytes") :=
  ⟨⟨by decide, (c9_randbytes_unique (fun k => 3 * k + 5) 8).1 (by decide)⟩,
   ⟨by decide, (c9_randbytes_unique (fun k => k) 257).2 (by decide)⟩⟩

/-- Folding the unknown-name removal over the remaining names commutes
with a known head of the live list: the head is never erased because
every erased name is unknown. -/
lemma foldl_removeUnknown_cons (known : List String) (x : String)
    (hx : x ∈ known) :
    ∀ (names cur : List String),
      names.foldl (fun cur n => if n ∈ known then cur else cur.erase n) (x :: cur)
        = x :: names.foldl (fun cur n => if n ∈ known then cur else cur.erase n) cur := by
  intro names
  induction names with
  | nil => intro cur; rfl
  | cons n ns ih =>
      intro cur
      simp only [List.foldl_cons]
      by_cases hn : n ∈ known
      · rw [if_pos hn, if_pos hn, ih]
      · rw [if_neg hn, if_neg hn]
        have hxn : ¬ (x == n) = true := by
          simp only [beq_iff_eq]
          rintro rfl
          exact hn hx
        rw [List.erase_cons_tail hxn, ih]

/-- C10: in lenient mode the caller-supplied selection list is mutated in
place so that after the call it contains exactly the names known to the
registry for the target format, in their original relative order: the
removal loop over a copy of the list computes the same final list as
filtering it by registry membership. -/
theorem c10_selection_filtered (known select : List String) :
    filterSelect known select
      = select.filter (fun n => decide (n ∈ known)) := by
  unfold filterSelect
  induction select with
  | nil => rfl
  | cons x xs ih =>
      simp only [List.foldl_cons]
      by_cases hx : x ∈ known
      · rw [if_pos hx, foldl_removeUnknown_cons known x hx xs xs, ih]
        simp [List.filter_cons, hx]
      · rw [if_neg hx, List.erase_cons_head, ih]
        simp [List.filter_cons, hx]

end Pbox
